import Mathlib

/-!
Shallow embedding of the SSR / state-transfer core of the `restart`
repository: the request-context builder and authentication check
(`apps/bff/src/http/auth.ts`, `apps/bff/src/server/requestContext.ts`),
the cache-policy emitter, the TTL cache (`apps/bff/src/server/cache.ts`),
the bootstrap assembler (`apps/bff/src/server/bootstrap.ts`), the upstream
HTTP client (`httpClient.ts`) and the JSON-escaping step of the SSR
renderer (`src/server/ssr/render.tsx`).  Effectful pieces are embedded as
pure functions over explicit inputs: upstream call results become
`Except` values, `Date.now()` becomes an explicit `now : Nat` argument,
and the JS `Map` backing the TTL cache becomes an insertion-ordered
association list.
-/

/-- JS-style prefix test: `pat` occurs at the start of `s`, character by
character. -/
def substrAt : List Char → List Char → Bool
  | [], _ => true
  | _ :: _, [] => false
  | p :: ps, c :: cs => p = c && substrAt ps cs

/-- JS `String.prototype.includes`: `pat` occurs somewhere inside `s`. -/
def containsSub (pat : List Char) : List Char → Bool
  | [] => substrAt pat []
  | c :: rest => substrAt pat (c :: rest) || containsSub pat rest

/-- Whitespace characters removed by JS `String.prototype.trim` (the
common ASCII subset). -/
def isJsWs (c : Char) : Bool :=
  c = ' ' || c = '\t' || c = '\n' || c = '\r' || c = '\x0b' || c = '\x0c'

/-- JS `String.prototype.trim` on a character list. -/
def jsTrim (s : List Char) : List Char :=
  ((s.dropWhile isJsWs).reverse.dropWhile isJsWs).reverse

/-- The slice of an express `Request` that the core reads: the `cookie`
header, the `authorization` header, and the remaining arbitrary headers
(which the core never consults). -/
structure HttpRequest where
  cookie : Option String
  authorization : Option String
  headers : List (String × String)

/-- `isAuthenticated` from `apps/bff/src/http/auth.ts`: true when the
cookie header contains the substring `session=`, or when the
authorization header is present, truthy and non-blank after trimming. -/
def isAuthenticated (req : HttpRequest) : Bool :=
  let cookie := (req.cookie.getD "").data
  if containsSub "session=".data cookie then true
  else
    match req.authorization with
    | some a => decide (a ≠ "") && decide (0 < (jsTrim a.data).length)
    | none => false

/-- The four response classes of the cache-policy emitter. -/
inductive CacheMode
  | html
  | bootstrap
  | data
  | static
deriving DecidableEq

/-- The two headers set by `applyCachePolicy`. -/
structure CacheHeaders where
  vary : String
  cacheControl : String
deriving DecidableEq

/-- `applyCachePolicy` from `apps/bff/src/http/middleware.ts`: always
sets `Vary: Accept-Encoding`; authenticated traffic is `private,
no-store` regardless of mode; anonymous traffic follows the mode table. -/
def applyCachePolicy (req : HttpRequest) (mode : CacheMode) : CacheHeaders :=
  let authed := isAuthenticated req
  if authed then ⟨"Accept-Encoding", "private, no-store"⟩
  else
    match mode with
    | .html =>
        ⟨"Accept-Encoding", "public, max-age=0, s-maxage=60, stale-while-revalidate=300"⟩
    | .bootstrap =>
        ⟨"Accept-Encoding", "public, max-age=0, s-maxage=30, stale-while-revalidate=120"⟩
    | .data =>
        ⟨"Accept-Encoding", "public, max-age=0, s-maxage=120, stale-while-revalidate=600"⟩
    | .static =>
        ⟨"Accept-Encoding", "public, max-age=31536000, immutable"⟩

/-- `RequestContext` from `apps/bff/src/server/requestContext.ts`. -/
structure RequestContext where
  requestId : String
  userId : Option String
  isAuthenticated : Bool
  route : String

/-- First match of the regex `/session=([^;]+)/`: scan for `session=`
and capture the following run of non-`;` characters; a position where
the capture would be empty does not match, and scanning continues. -/
def matchSession : List Char → Option (List Char)
  | [] => none
  | c :: rest =>
    if substrAt "session=".data (c :: rest) then
      let cap := ((c :: rest).drop 8).takeWhile (fun d => d != ';')
      if cap.isEmpty then matchSession rest else some cap
    else matchSession rest

/-- `getOrCreateUserId` from `requestContext.ts`: `none` for anonymous
requests; for authenticated requests, the session cookie value when one
matches, otherwise a fresh opaque id (`crypto.randomUUID()`, passed in
here as the explicit argument `uuid`). -/
def getOrCreateUserId (req : HttpRequest) (uuid : String) : Option String :=
  if isAuthenticated req then
    match matchSession ((req.cookie.getD "").data) with
    | some cap => some (String.mk cap)
    | none => some uuid
  else none

/-- `buildRequestContext` from `requestContext.ts`; the two random UUIDs
(`requestId` and the anonymous-identity fallback) are explicit inputs. -/
def buildRequestContext (req : HttpRequest) (freshId uuid : String)
    (routeOverride : Option String) (path : String) : RequestContext :=
  { requestId := freshId
    userId := getOrCreateUserId req uuid
    route := routeOverride.getD path
    isAuthenticated := isAuthenticated req }

/-- JS template-literal rendering of a `string | null` value: `null`
prints as the text `null`. -/
def jsStringOfNullable : Option String → String
  | none => "null"
  | some s => s

/-- `makePublicKey` from `apps/bff/src/server/bootstrap.ts`. -/
def makePublicKey (ctx : RequestContext) : String :=
  "route=" ++ ctx.route

/-- `makePrivateKey` from `apps/bff/src/server/bootstrap.ts`. -/
def makePrivateKey (ctx : RequestContext) : String :=
  if !ctx.isAuthenticated then "anon:" ++ ctx.route
  else "user=" ++ jsStringOfNullable ctx.userId ++ ":" ++ ctx.route

/-- `isBootstrapPublic` from `bootstrap.ts`: always `false` with the
current identity-dependent greeting. -/
def isBootstrapPublic (_ctx : RequestContext) : Bool :=
  false

/-- A TTL-cache entry (`CacheEntry<T>` in `cache.ts`). -/
structure CacheEntry (V : Type) where
  value : V
  expiresAtMs : Nat
deriving DecidableEq

/-- JS `Map.prototype.get` on an insertion-ordered association list. -/
def mapGet {V : Type} : List (String × CacheEntry V) → String → Option (CacheEntry V)
  | [], _ => none
  | (k0, e) :: rest, k => if k0 = k then some e else mapGet rest k

/-- JS `Map.prototype.delete`: removes the pairs whose key is `k` (a JS
map holds at most one). -/
def mapDelete {V : Type} (l : List (String × CacheEntry V)) (k : String) :
    List (String × CacheEntry V) :=
  l.filter (fun p => p.1 != k)

/-- JS `Map.prototype.set`: an existing key is updated in place, keeping
its insertion position; a new key is appended at the end. -/
def mapSet {V : Type} : List (String × CacheEntry V) → String → CacheEntry V →
    List (String × CacheEntry V)
  | [], k, e => [(k, e)]
  | (k0, e0) :: rest, k, e =>
    if k0 = k then (k, e) :: rest else (k0, e0) :: mapSet rest k e

/-- The `TTLCache` state from `apps/bff/src/server/cache.ts`. -/
structure TTLCache (V : Type) where
  ttlMs : Nat
  maxSize : Nat
  entries : List (String × CacheEntry V)

/-- `TTLCache.get`: absent keys and expired entries (`now ≥ expiresAtMs`)
report `none`, and an expired entry is deleted; the post-state is
returned alongside the value. -/
def TTLCache.get {V : Type} (c : TTLCache V) (k : String) (now : Nat) :
    Option V × TTLCache V :=
  match mapGet c.entries k with
  | none => (none, c)
  | some e =>
    if e.expiresAtMs ≤ now then (none, { c with entries := mapDelete c.entries k })
    else (some e.value, c)

/-- The eviction step at the head of `TTLCache.set`: when the map is at
capacity (`size >= maxSize`) and the key is new, the first key in
insertion order is deleted — except that a falsy (empty) oldest key
skips the delete (`if (oldest)` in the source), and an empty map has no
oldest key. -/
def afterEvict {V : Type} (c : TTLCache V) (k : String) :
    List (String × CacheEntry V) :=
  if c.maxSize ≤ c.entries.length && (mapGet c.entries k).isNone then
    match c.entries with
    | [] => c.entries
    | (k0, _) :: _ => if k0 = "" then c.entries else mapDelete c.entries k0
  else c.entries

/-- `TTLCache.set`: the eviction step above, then the entry is written
with `expiresAt = now + ttl`. -/
def TTLCache.set {V : Type} (c : TTLCache V) (k : String) (v : V) (now : Nat) :
    TTLCache V :=
  { c with entries := mapSet (afterEvict c k) k ⟨v, now + c.ttlMs⟩ }

/-- `TTLCache.delete`. -/
def TTLCache.del {V : Type} (c : TTLCache V) (k : String) : TTLCache V :=
  { c with entries := mapDelete c.entries k }

/-- `TTLCache.clear`. -/
def TTLCache.clear {V : Type} (c : TTLCache V) : TTLCache V :=
  { c with entries := [] }

/-- `TTLCache.invalidate`: drops the entries whose key matches the
predicate (the source's `RegExp.test`). -/
def TTLCache.invalidate {V : Type} (c : TTLCache V) (p : String → Bool) : TTLCache V :=
  { c with entries := c.entries.filter (fun q => !(p q.1)) }

/-- One cache operation, for reasoning about operation sequences. -/
inductive CacheOp (V : Type)
  | get (k : String) (now : Nat)
  | set (k : String) (v : V) (now : Nat)
  | del (k : String)
  | invalidate (p : String → Bool)
  | clear

/-- State after one cache operation. -/
def applyOp {V : Type} (c : TTLCache V) : CacheOp V → TTLCache V
  | .get k now => (c.get k now).2
  | .set k v now => c.set k v now
  | .del k => c.del k
  | .invalidate p => c.invalidate p
  | .clear => c.clear

/-- State after a sequence of cache operations. -/
def applyOps {V : Type} (c : TTLCache V) (ops : List (CacheOp V)) : TTLCache V :=
  ops.foldl applyOp c

/-- A single todo item as used by the payload and the projection in the
bootstrap assembler. -/
structure TodoItem where
  id : Int
  title : String
  completed : Bool
deriving DecidableEq

/-- The page variant of the bootstrap payload (`page.kind` discriminated
union from `packages/shared/src/types/bootstrap.ts`). -/
inductive Page
  | home
  | todos (todos : List TodoItem)
  | error (status : Int) (code : String) (message : String)
deriving DecidableEq

/-- Whether a page is the error variant. -/
def Page.isError : Page → Bool
  | .error _ _ _ => true
  | _ => false

/-- The bootstrap payload. -/
structure BootstrapPayload where
  route : String
  greeting : String
  page : Page
deriving DecidableEq

/-- An upstream identity record (`ExternalUser` in `bootstrap.ts`). -/
structure ExternalUser where
  id : Int
  name : String
  username : String

/-- An upstream listing record (`ExternalTodo` in `bootstrap.ts`). -/
structure ExternalTodo where
  id : Int
  title : String
  completed : Bool

/-- Classification of a JS exception thrown inside the HTTP client's
try block: an abort (timeout) error, a `TypeError` (network failure),
the `Error` thrown on a non-2xx response, a JSON `SyntaxError`, or a
thrown value that is not an `Error` instance at all. -/
inductive JsError
  | abortError
  | typeError
  | httpError (status : Nat)
  | syntaxError
  | nonError
deriving DecidableEq

/-- The error payload produced by the catch-all in `getBootstrapPayload`. -/
def errorBootstrap (route : String) : BootstrapPayload :=
  { route := route
    greeting := "Welcome back, user"
    page := .error 500 "BOOTSTRAP_UNKNOWN" "An unknown error occurred during bootstrapping." }

/-- `getBootstrapPayload` from `apps/bff/src/server/bootstrap.ts` on the
chosen cache's lookup result `cached` and the outcomes of the two
upstream calls (`getUserName`, `getTodos`).  The `try`/`catch` is
embedded as explicit error propagation: any failing upstream call falls
through to the catch-all error payload.  The greeting mirrors the JS
truthiness test (`userName ? ... : "Welcome"`), under which the empty
display name also yields `Welcome`. -/
def getBootstrapPayload (ctx : RequestContext) (cached : Option BootstrapPayload)
    (userRes : Except JsError ExternalUser)
    (todosRes : Except JsError (List ExternalTodo)) : BootstrapPayload :=
  match cached with
  | some p => p
  | none =>
    match (if ctx.isAuthenticated then Except.map (fun u => some u.name) userRes
           else .ok none) with
    | .error _ => errorBootstrap ctx.route
    | .ok userName =>
      let greeting :=
        match userName with
        | some n => if n = "" then "Welcome" else "Welcome back, " ++ n
        | none => "Welcome"
      if ctx.route = "/todos" then
        match todosRes with
        | .error _ => errorBootstrap ctx.route
        | .ok todos =>
          { route := ctx.route
            greeting := greeting
            page := .todos (todos.map (fun t =>
              { id := t.id, title := t.title, completed := t.completed })) }
      else
        { route := ctx.route, greeting := greeting, page := .home }

/-- `isRetryable` from `httpClient.ts`: only an abort (timeout) error or
a `TypeError` (network failure) is retryable; HTTP-status errors, parse
errors and non-`Error` values are terminal. -/
def isRetryable : JsError → Bool
  | .abortError => true
  | .typeError => true
  | _ => false

/-- The outcome of one fetch attempt: a parsed 2xx body, or a thrown
exception. -/
inductive FetchOutcome (α : Type)
  | ok (v : α)
  | err (e : JsError)

/-- Options accepted by `getJson` (both fields optional in the source). -/
structure GetJsonOpts where
  timeoutMs : Option Nat
  retries : Option Nat

/-- Resolution of the timeout option: `opts?.timeoutMs ?? 5000`. -/
def resolveTimeoutMs (opts : Option GetJsonOpts) : Nat :=
  match opts with
  | none => 5000
  | some o => o.timeoutMs.getD 5000

/-- Resolution of the retries option: `opts?.retries ?? 1`. -/
def resolveRetries (opts : Option GetJsonOpts) : Nat :=
  match opts with
  | none => 1
  | some o => o.retries.getD 1

/-- The retry loop of `getJson`: `outcomes i` is the result of the
`i`-th attempt (0-based); `fuel` counts the retries still allowed
(`maxRetries - attempt`).  Returns the final result together with the
number of attempts performed. -/
def getJsonLoop {α : Type} (outcomes : Nat → FetchOutcome α) :
    Nat → Nat → Except JsError α × Nat
  | attempt, fuel =>
    match outcomes attempt with
    | .ok v => (.ok v, attempt + 1)
    | .err e =>
      match fuel with
      | 0 => (.error e, attempt + 1)
      | fuel' + 1 =>
        if isRetryable e then getJsonLoop outcomes (attempt + 1) fuel'
        else (.error e, attempt + 1)

/-- `getJson` from `httpClient.ts`: up to `1 + retries` attempts, retrying
only retryable failures. -/
def getJson {α : Type} (outcomes : Nat → FetchOutcome α) (opts : Option GetJsonOpts) :
    Except JsError α × Nat :=
  getJsonLoop outcomes 0 (resolveRetries opts)

/-- Lower-case hex digit of a value below 16. -/
def hexDigit (n : Nat) : Char :=
  if n < 10 then Char.ofNat (48 + n) else Char.ofNat (87 + n)

/-- Escapes one character the way `JSON.stringify` does inside string
values: the quote and backslash get a backslash escape, control
characters get their short or `\u00XX` form, everything else (including
`<`, `>`, `&` and the apostrophe) is emitted raw. -/
def jsonEscapeChar (c : Char) : List Char :=
  if c = Char.ofNat 34 then ['\\', Char.ofNat 34]
  else if c = '\\' then ['\\', '\\']
  else if c = '\x08' then ['\\', 'b']
  else if c = '\t' then ['\\', 't']
  else if c = '\n' then ['\\', 'n']
  else if c = '\x0c' then ['\\', 'f']
  else if c = '\r' then ['\\', 'r']
  else if c.toNat < 32 then ['\\', 'u', '0', '0', hexDigit (c.toNat / 16), hexDigit (c.toNat % 16)]
  else [c]

/-- `JSON.stringify` of a string value. -/
def jsonStringChars (s : String) : List Char :=
  Char.ofNat 34 :: ((s.data.map jsonEscapeChar).flatten ++ [Char.ofNat 34])

/-- `JSON.stringify` of one projected todo record. -/
def jsonTodoChars (t : TodoItem) : List Char :=
  "\x7b\"id\":".data ++ (toString t.id).data
    ++ ",\"title\":".data ++ jsonStringChars t.title
    ++ ",\"completed\":".data ++ (if t.completed then "true".data else "false".data)
    ++ "\x7d".data

/-- `JSON.stringify` of the todo array. -/
def jsonTodoListChars (ts : List TodoItem) : List Char :=
  '[' :: (List.intercalate ",".data (ts.map jsonTodoChars) ++ [']'])

/-- `JSON.stringify` of the page variant, with the object-literal key
order of `bootstrap.ts`. -/
def jsonPageChars : Page → List Char
  | .home => "\x7b\"kind\":\"home\"\x7d".data
  | .todos ts =>
      "\x7b\"kind\":\"todos\",\"todos\":".data ++ jsonTodoListChars ts ++ "\x7d".data
  | .error status code message =>
      "\x7b\"kind\":\"error\",\"status\":".data ++ (toString status).data
        ++ ",\"code\":".data ++ jsonStringChars code
        ++ ",\"message\":".data ++ jsonStringChars message ++ "\x7d".data

/-- `JSON.stringify(payload)` for a bootstrap payload. -/
def jsonBootstrapChars (p : BootstrapPayload) : List Char :=
  "\x7b\"route\":".data ++ jsonStringChars p.route
    ++ ",\"greeting\":".data ++ jsonStringChars p.greeting
    ++ ",\"page\":".data ++ jsonPageChars p.page ++ "\x7d".data

/-- `.replace(/</g, "\\u003c")`: every `<` becomes the six characters
`<`; nothing else is touched. -/
def escapeLtChars : List Char → List Char
  | [] => []
  | c :: rest => (if c = '<' then "\\u003c".data else [c]) ++ escapeLtChars rest

/-- `escapeJsonForHtml` from `src/server/ssr/render.tsx`:
`JSON.stringify(json).replace(/</g, "\\u003c")`. -/
def escapeJsonForHtml (p : BootstrapPayload) : List Char :=
  escapeLtChars (jsonBootstrapChars p)

/-- The inline state script element built by `renderHtml`. -/
def injectedBootstrapScript (p : BootstrapPayload) : List Char :=
  "<script>window.__BOOTSTRAP__=".data ++ escapeJsonForHtml p ++ ";</script>".data

/-! ### Association-list lemmas for the TTL cache -/

theorem mapGet_mapSet_self {V : Type} (l : List (String × CacheEntry V)) (k : String)
    (e : CacheEntry V) : mapGet (mapSet l k e) k = some e := by
  induction l with
  | nil => simp [mapSet, mapGet]
  | cons p rest ih =>
    obtain ⟨k0, e0⟩ := p
    by_cases h : k0 = k
    · simp [mapSet, h, mapGet]
    · simp [mapSet, h, mapGet, ih]

theorem mapGet_mapSet_ne {V : Type} (l : List (String × CacheEntry V)) (k k' : String)
    (e : CacheEntry V) (h : k' ≠ k) : mapGet (mapSet l k e) k' = mapGet l k' := by
  have h' : k ≠ k' := Ne.symm h
  induction l with
  | nil => simp [mapSet, mapGet, h']
  | cons p rest ih =>
    obtain ⟨k0, e0⟩ := p
    by_cases h0 : k0 = k
    · subst h0
      simp [mapSet, mapGet, h']
    · simp [mapSet, h0, mapGet, ih]

theorem mapGet_mapDelete_self {V : Type} (l : List (String × CacheEntry V)) (k : String) :
    mapGet (mapDelete l k) k = none := by
  induction l with
  | nil => simp [mapDelete, mapGet]
  | cons p rest ih =>
    obtain ⟨k0, e0⟩ := p
    by_cases h : k0 = k
    · simpa [mapDelete, h] using ih
    · simpa [mapDelete, mapGet, h] using ih

theorem mapGet_mapDelete_ne {V : Type} (l : List (String × CacheEntry V)) (k k' : String)
    (h : k' ≠ k) : mapGet (mapDelete l k) k' = mapGet l k' := by
  have h' : k ≠ k' := Ne.symm h
  induction l with
  | nil => simp [mapDelete]
  | cons p rest ih =>
    obtain ⟨k0, e0⟩ := p
    by_cases h0 : k0 = k
    · subst h0
      simpa [mapDelete, mapGet, h'] using ih
    · by_cases h1 : k0 = k'
      · subst h1
        simp [mapDelete, mapGet, h0]
      · simpa [mapDelete, mapGet, h0, h1] using ih

theorem length_mapSet_present {V : Type} (l : List (String × CacheEntry V)) (k : String)
    (e : CacheEntry V) (h : (mapGet l k).isSome = true) :
    (mapSet l k e).length = l.length := by
  induction l with
  | nil => simp [mapGet] at h
  | cons p rest ih =>
    obtain ⟨k0, e0⟩ := p
    by_cases h0 : k0 = k
    · simp [mapSet, h0]
    · simp [mapGet, h0] at h
      simp [mapSet, h0, ih h]

theorem length_mapSet_absent {V : Type} (l : List (String × CacheEntry V)) (k : String)
    (e : CacheEntry V) (h : mapGet l k = none) :
    (mapSet l k e).length = l.length + 1 := by
  induction l with
  | nil => simp [mapSet]
  | cons p rest ih =>
    obtain ⟨k0, e0⟩ := p
    by_cases h0 : k0 = k
    · simp [mapGet, h0] at h
    · simp [mapGet, h0] at h
      simp [mapSet, h0, ih h]

theorem length_mapDelete_le {V : Type} (l : List (String × CacheEntry V)) (k : String) :
    (mapDelete l k).length ≤ l.length :=
  List.length_filter_le _ l

theorem length_mapDelete_head {V : Type} (k0 : String) (e0 : CacheEntry V)
    (rest : List (String × CacheEntry V)) :
    (mapDelete ((k0, e0) :: rest) k0).length ≤ rest.length := by
  simpa [mapDelete] using length_mapDelete_le rest k0

theorem mem_mapSet {V : Type} (l : List (String × CacheEntry V)) (k : String)
    (e : CacheEntry V) (p : String × CacheEntry V) (hp : p ∈ mapSet l k e) :
    p ∈ l ∨ p.1 = k := by
  induction l with
  | nil =>
    simp [mapSet] at hp
    simp [hp]
  | cons q rest ih =>
    obtain ⟨k0, e0⟩ := q
    by_cases h0 : k0 = k
    · simp [mapSet, h0] at hp
      rcases hp with hp | hp
      · simp [hp]
      · exact Or.inl (List.mem_cons_of_mem _ hp)
    · simp [mapSet, h0] at hp
      rcases hp with hp | hp
      · exact Or.inl (by simp [hp])
      · rcases ih hp with h | h
        · exact Or.inl (List.mem_cons_of_mem _ h)
        · exact Or.inr h

theorem mem_mapDelete {V : Type} (l : List (String × CacheEntry V)) (k : String)
    (p : String × CacheEntry V) (hp : p ∈ mapDelete l k) : p ∈ l :=
  List.mem_of_mem_filter hp

/-! ### Well-formedness of reachable cache states -/

/-- The states the claims quantify over: no more entries than the
capacity, and no falsy (empty-string) key. -/
def cacheWF {V : Type} (c : TTLCache V) : Prop :=
  c.entries.length ≤ c.maxSize ∧ ∀ p ∈ c.entries, p.1 ≠ ""

/-- An operation whose written key is truthy (non-empty). -/
def opKeyOK {V : Type} : CacheOp V → Bool
  | .set k _ _ => k != ""
  | _ => true

theorem afterEvict_eq_of_present {V : Type} (c : TTLCache V) (k : String)
    (h : (mapGet c.entries k).isSome = true) : afterEvict c k = c.entries := by
  rcases hm : mapGet c.entries k with _ | e
  · rw [hm] at h
    simp at h
  · simp [afterEvict, hm]

theorem afterEvict_eq_of_room {V : Type} (c : TTLCache V) (k : String)
    (h : c.entries.length < c.maxSize) : afterEvict c k = c.entries := by
  have h' : ¬ c.maxSize ≤ c.entries.length := by omega
  simp [afterEvict, h']

theorem afterEvict_eq_delete {V : Type} (c : TTLCache V) (k k0 : String)
    (e0 : CacheEntry V) (rest : List (String × CacheEntry V))
    (hfull : c.maxSize ≤ c.entries.length) (hget : mapGet c.entries k = none)
    (hE : c.entries = (k0, e0) :: rest) (hk0 : k0 ≠ "") :
    afterEvict c k = mapDelete c.entries k0 := by
  unfold afterEvict
  rw [hE]
  rw [hE] at hfull hget
  simp [hfull, hget, hk0]
  intro hlt
  exfalso
  simp at hfull
  omega

theorem mem_afterEvict {V : Type} (c : TTLCache V) (k : String)
    (p : String × CacheEntry V) (hp : p ∈ afterEvict c k) : p ∈ c.entries := by
  unfold afterEvict at hp
  split at hp
  · rcases hE : c.entries with _ | ⟨⟨k0, e0⟩, rest⟩
    · rw [hE] at hp
      simp at hp
    · rw [hE] at hp
      by_cases h0 : k0 = ""
      · subst h0
        simp at hp
        rcases hp with hp | hp
        · simp [hp]
        · exact List.mem_cons_of_mem _ hp
      · simp [h0] at hp
        exact mem_mapDelete _ _ _ hp
  · exact hp

theorem TTLCache.get_snd_cases {V : Type} (c : TTLCache V) (k : String) (now : Nat) :
    (TTLCache.get c k now).2 = c ∨
      (TTLCache.get c k now).2 = { c with entries := mapDelete c.entries k } := by
  rcases hm : mapGet c.entries k with _ | e
  · exact Or.inl (by simp [TTLCache.get, hm])
  · by_cases he : e.expiresAtMs ≤ now
    · exact Or.inr (by simp [TTLCache.get, hm, he])
    · exact Or.inl (by simp [TTLCache.get, hm, he])

theorem cacheWF_of_shrink {V : Type} (c : TTLCache V) (l : List (String × CacheEntry V))
    (hsub : ∀ p ∈ l, p ∈ c.entries) (hlen : l.length ≤ c.entries.length)
    (hwf : cacheWF c) : cacheWF { c with entries := l } :=
  ⟨le_trans hlen hwf.1, fun p hp => hwf.2 p (hsub p hp)⟩

theorem set_wf {V : Type} (c : TTLCache V) (k : String) (v : V) (now : Nat)
    (hms : 1 ≤ c.maxSize) (hwf : cacheWF c) (hk : k ≠ "") :
    cacheWF (TTLCache.set c k v now) := by
  obtain ⟨hlen, hkeys⟩ := hwf
  constructor
  · show (mapSet (afterEvict c k) k ⟨v, now + c.ttlMs⟩).length ≤ c.maxSize
    rcases hget : mapGet c.entries k with _ | e
    · by_cases hfull : c.maxSize ≤ c.entries.length
      · have hne : c.entries ≠ [] := by
          intro h0
          rw [h0] at hfull
          simp at hfull
          omega
        obtain ⟨⟨k0, e0⟩, rest, hE⟩ := List.exists_cons_of_ne_nil hne
        have hk0 : k0 ≠ "" := hkeys (k0, e0) (by rw [hE]; exact List.mem_cons_self _ _)
        have hkk0 : k ≠ k0 := by
          intro h
          rw [hE, h] at hget
          simp [mapGet] at hget
        have hafter := afterEvict_eq_delete c k k0 e0 rest hfull hget hE hk0
        have hga : mapGet (afterEvict c k) k = none := by
          rw [hafter, mapGet_mapDelete_ne _ _ _ hkk0]
          exact hget
        rw [length_mapSet_absent _ _ _ hga, hafter, hE]
        have h1 := length_mapDelete_head k0 e0 rest
        have h2 : c.entries.length = rest.length + 1 := by rw [hE]; simp
        omega
      · rw [afterEvict_eq_of_room c k (by omega), length_mapSet_absent _ _ _ hget]
        omega
    · have hsome : (mapGet c.entries k).isSome = true := by simp [hget]
      rw [afterEvict_eq_of_present c k hsome, length_mapSet_present _ _ _ hsome]
      exact hlen
  · intro p hp
    rcases mem_mapSet _ _ _ _ hp with h | h
    · exact hkeys p (mem_afterEvict _ _ _ h)
    · rw [h]
      exact hk

theorem applyOp_wf {V : Type} (c : TTLCache V) (op : CacheOp V) (hms : 1 ≤ c.maxSize)
    (hwf : cacheWF c) (hop : opKeyOK op = true) :
    cacheWF (applyOp c op) ∧ (applyOp c op).maxSize = c.maxSize := by
  cases op with
  | get k now =>
    rcases TTLCache.get_snd_cases c k now with h | h
    · refine ⟨?_, ?_⟩
      · show cacheWF ((TTLCache.get c k now).2)
        rw [h]
        exact hwf
      · show ((TTLCache.get c k now).2).maxSize = c.maxSize
        rw [h]
    · refine ⟨?_, ?_⟩
      · show cacheWF ((TTLCache.get c k now).2)
        rw [h]
        exact cacheWF_of_shrink c _ (fun p hp => mem_mapDelete _ _ _ hp)
          (length_mapDelete_le _ _) hwf
      · show ((TTLCache.get c k now).2).maxSize = c.maxSize
        rw [h]
  | set k v now =>
    simp [opKeyOK] at hop
    exact ⟨set_wf c k v now hms hwf hop, rfl⟩
  | del k =>
    exact ⟨cacheWF_of_shrink c _ (fun p hp => mem_mapDelete _ _ _ hp)
      (length_mapDelete_le _ _) hwf, rfl⟩
  | invalidate p =>
    exact ⟨cacheWF_of_shrink c _ (fun q hq => List.mem_of_mem_filter hq)
      (List.length_filter_le _ _) hwf, rfl⟩
  | clear =>
    refine ⟨⟨?_, ?_⟩, rfl⟩
    · simp [applyOp, TTLCache.clear]
    · simp [applyOp, TTLCache.clear]

theorem applyOps_wf {V : Type} (ops : List (CacheOp V)) (c : TTLCache V)
    (hms : 1 ≤ c.maxSize) (hwf : cacheWF c)
    (hops : ∀ op ∈ ops, opKeyOK op = true) : cacheWF (applyOps c ops) := by
  induction ops generalizing c with
  | nil => simpa [applyOps] using hwf
  | cons op rest ih =>
    have h1 := applyOp_wf c op hms hwf (hops op (List.mem_cons_self _ _))
    have hstep : applyOps c (op :: rest) = applyOps (applyOp c op) rest := by
      simp [applyOps]
    rw [hstep]
    exact ih (applyOp c op) (h1.2 ▸ hms) h1.1 (fun o ho => hops o (List.mem_cons_of_mem _ ho))

/-! ### Claim C8: TTL expiry semantics of `TTLCache.get` -/

/-- Claim C8: for an entry inserted at time `t` with time-to-live
`ttlMs`, `get` returns the inserted value when invoked strictly before
`t + ttlMs`, and returns absent — removing the entry — when invoked at
or after `t + ttlMs`. -/
theorem ttlcache_get_expiry (V : Type) (c : TTLCache V) (k : String) (v : V) (t now : Nat) :
    (now < t + c.ttlMs → ((TTLCache.set c k v t).get k now).1 = some v)
    ∧ (t + c.ttlMs ≤ now →
        ((TTLCache.set c k v t).get k now).1 = none
        ∧ mapGet (((TTLCache.set c k v t).get k now).2).entries k = none) := by
  have hget : mapGet ((TTLCache.set c k v t).entries) k = some ⟨v, t + c.ttlMs⟩ := by
    show mapGet (mapSet (afterEvict c k) k ⟨v, t + c.ttlMs⟩) k = _
    exact mapGet_mapSet_self _ _ _
  constructor
  · intro hlt
    have hnot : ¬ ((⟨v, t + c.ttlMs⟩ : CacheEntry V).expiresAtMs ≤ now) := by
      simp
      omega
    simp [TTLCache.get, hget, hnot]
  · intro hle
    have hexp : ((⟨v, t + c.ttlMs⟩ : CacheEntry V).expiresAtMs ≤ now) := hle
    constructor
    · simp [TTLCache.get, hget, hexp]
    · simp [TTLCache.get, hget, hexp]
      exact mapGet_mapDelete_self _ _

/-- Claim C8 witness: in a fresh cache with `ttl = 10`, a value written
at `t = 100` is readable at 105 and gone at 110. -/
theorem ttlcache_get_expiry_witness :
    ((TTLCache.set (⟨10, 5, []⟩ : TTLCache Nat) "k" 7 100).get "k" 105).1 = some 7
    ∧ ((TTLCache.set (⟨10, 5, []⟩ : TTLCache Nat) "k" 7 100).get "k" 110).1 = none :=
  ⟨(ttlcache_get_expiry Nat ⟨10, 5, []⟩ "k" 7 100 105).1 (by decide),
   ((ttlcache_get_expiry Nat ⟨10, 5, []⟩ "k" 7 100 110).2 (by decide)).1⟩

/-! ### Claim C10: capacity bound and eviction discipline of `TTLCache.set` -/

/-- Claim C10 counterexample: the unqualified capacity claim fails on
the code.  With capacity 0, a `set` on the empty cache skips the evict
(the map has no oldest key) and stores one entry, exceeding `maxSize`;
and with capacity 1, when the oldest key is the empty string the JS
truthiness test `if (oldest)` skips the delete, so a second `set`
grows the map to 2 entries. -/
theorem ttlcache_capacity_counterexample :
    (TTLCache.set (⟨1000, 0, []⟩ : TTLCache Nat) "a" 1 0).entries.length = 1
    ∧ (TTLCache.set (TTLCache.set (⟨1000, 1, []⟩ : TTLCache Nat) "" 1 0) "a" 2 0).entries.length = 2 := by
  constructor
  · decide
  · decide

theorem applyOp_maxSize {V : Type} (c : TTLCache V) (op : CacheOp V) :
    (applyOp c op).maxSize = c.maxSize := by
  cases op with
  | get k now =>
    rcases TTLCache.get_snd_cases c k now with h | h
    · show ((TTLCache.get c k now).2).maxSize = c.maxSize
      rw [h]
    · show ((TTLCache.get c k now).2).maxSize = c.maxSize
      rw [h]
  | set k v now => rfl
  | del k => rfl
  | invalidate p => rfl
  | clear => rfl

theorem applyOps_maxSize {V : Type} (ops : List (CacheOp V)) (c : TTLCache V) :
    (applyOps c ops).maxSize = c.maxSize := by
  induction ops generalizing c with
  | nil => rfl
  | cons op rest ih =>
    have hstep : applyOps c (op :: rest) = applyOps (applyOp c op) rest := by
      simp [applyOps]
    rw [hstep, ih, applyOp_maxSize]

/-- Claim C10 (amended): for caches of capacity `maxSize ≥ 1` and
operation sequences whose written keys are truthy (non-empty), the
entry count never exceeds `maxSize`; a `set` on an existing key evicts
nothing (the size and all other keys are unchanged); a `set` with room
left evicts nothing; and a `set` on a full cache with a new key evicts
exactly the oldest-inserted key, provided that key is truthy. -/
theorem ttlcache_capacity :
    (∀ (V : Type) (ttl maxSize : Nat) (ops : List (CacheOp V)),
        1 ≤ maxSize → ops.all opKeyOK = true →
        (applyOps (⟨ttl, maxSize, []⟩ : TTLCache V) ops).entries.length ≤ maxSize)
    ∧ (∀ (V : Type) (c : TTLCache V) (k : String) (v : V) (now : Nat),
        (mapGet c.entries k).isSome = true →
        (TTLCache.set c k v now).entries.length = c.entries.length
        ∧ ∀ k', k' ≠ k →
            mapGet (TTLCache.set c k v now).entries k' = mapGet c.entries k')
    ∧ (∀ (V : Type) (c : TTLCache V) (k : String) (v : V) (now : Nat),
        c.entries.length < c.maxSize →
        ∀ k', k' ≠ k →
            mapGet (TTLCache.set c k v now).entries k' = mapGet c.entries k')
    ∧ (∀ (V : Type) (c : TTLCache V) (k : String) (v : V) (now : Nat)
        (k0 : String) (e0 : CacheEntry V) (rest : List (String × CacheEntry V)),
        c.entries = (k0, e0) :: rest → k0 ≠ "" → c.maxSize ≤ c.entries.length →
        mapGet c.entries k = none →
        mapGet (TTLCache.set c k v now).entries k0 = none) := by
  refine ⟨?_, ?_, ?_, ?_⟩
  · intro V ttl maxSize ops h1 h2
    have hwf0 : cacheWF (⟨ttl, maxSize, []⟩ : TTLCache V) := ⟨by simp, by simp⟩
    have hops : ∀ op ∈ ops, opKeyOK op = true := by simpa using h2
    have h := (applyOps_wf ops _ h1 hwf0 hops).1
    rwa [applyOps_maxSize] at h
  · intro V c k v now hsome
    have hafter := afterEvict_eq_of_present c k hsome
    constructor
    · show (mapSet (afterEvict c k) k ⟨v, now + c.ttlMs⟩).length = _
      rw [hafter]
      exact length_mapSet_present _ _ _ hsome
    · intro k' hk'
      show mapGet (mapSet (afterEvict c k) k ⟨v, now + c.ttlMs⟩) k' = _
      rw [mapGet_mapSet_ne _ _ _ _ hk', hafter]
  · intro V c k v now hroom k' hk'
    have hafter := afterEvict_eq_of_room c k hroom
    show mapGet (mapSet (afterEvict c k) k ⟨v, now + c.ttlMs⟩) k' = _
    rw [mapGet_mapSet_ne _ _ _ _ hk', hafter]
  · intro V c k v now k0 e0 rest hE hk0 hfull hget
    have hkk0 : k ≠ k0 := by
      intro h
      rw [hE, h] at hget
      simp [mapGet] at hget
    have hafter := afterEvict_eq_delete c k k0 e0 rest hfull hget hE hk0
    show mapGet (mapSet (afterEvict c k) k ⟨v, now + c.ttlMs⟩) k0 = none
    rw [mapGet_mapSet_ne _ _ _ _ (Ne.symm hkk0), hafter, mapGet_mapDelete_self]

/-- Claim C10 witness: a concrete operation sequence stays within
capacity 1; a rewrite of the existing key `a` keeps the size at 1; a
`set` of `b` with room keeps `a` readable; and a `set` of `b` on a full
one-slot cache evicts `a`. -/
theorem ttlcache_capacity_witness :
    (applyOps (⟨5, 1, []⟩ : TTLCache Nat)
        [CacheOp.set "a" 1 0, CacheOp.set "b" 2 3, CacheOp.get "a" 4,
         CacheOp.del "b", CacheOp.clear]).entries.length ≤ 1
    ∧ (TTLCache.set (⟨5, 2, [("a", ⟨9, 50⟩)]⟩ : TTLCache Nat) "a" 6 0).entries.length = 1
    ∧ mapGet (TTLCache.set (⟨5, 2, [("a", ⟨9, 50⟩)]⟩ : TTLCache Nat) "b" 1 0).entries "a"
        = some ⟨9, 50⟩
    ∧ mapGet (TTLCache.set (⟨5, 1, [("a", ⟨9, 50⟩)]⟩ : TTLCache Nat) "b" 1 0).entries "a"
        = none := by
  refine ⟨?_, ?_, ?_, ?_⟩
  · exact ttlcache_capacity.1 Nat 5 1
      [CacheOp.set "a" 1 0, CacheOp.set "b" 2 3, CacheOp.get "a" 4,
       CacheOp.del "b", CacheOp.clear] (by decide) (by decide)
  · exact (ttlcache_capacity.2.1 Nat ⟨5, 2, [("a", ⟨9, 50⟩)]⟩ "a" 6 0 (by decide)).1
  · exact ttlcache_capacity.2.2.1 Nat ⟨5, 2, [("a", ⟨9, 50⟩)]⟩ "b" 1 0 (by decide)
      "a" (by decide)
  · exact ttlcache_capacity.2.2.2 Nat ⟨5, 1, [("a", ⟨9, 50⟩)]⟩ "b" 1 0 "a" ⟨9, 50⟩ []
      rfl (by decide) (by decide) (by decide)

/-! ### Claim C5: the cache-policy decision table -/

/-- Claim C5: for every request and mode, the emitter sets `Vary:
Accept-Encoding`; an authenticated request gets `Cache-Control:
private, no-store` regardless of mode; an anonymous request gets
exactly the directive of the mode table. -/
theorem applyCachePolicy_table (req : HttpRequest) (mode : CacheMode) :
    (applyCachePolicy req mode).vary = "Accept-Encoding"
    ∧ (isAuthenticated req = true →
        (applyCachePolicy req mode).cacheControl = "private, no-store")
    ∧ (isAuthenticated req = false →
        (mode = .html → (applyCachePolicy req mode).cacheControl
            = "public, max-age=0, s-maxage=60, stale-while-revalidate=300")
        ∧ (mode = .bootstrap → (applyCachePolicy req mode).cacheControl
            = "public, max-age=0, s-maxage=30, stale-while-revalidate=120")
        ∧ (mode = .data → (applyCachePolicy req mode).cacheControl
            = "public, max-age=0, s-maxage=120, stale-while-revalidate=600")
        ∧ (mode = .static → (applyCachePolicy req mode).cacheControl
            = "public, max-age=31536000, immutable")) := by
  by_cases h : isAuthenticated req = true
  · refine ⟨?_, ?_, ?_⟩ <;> simp [applyCachePolicy, h]
  · have h' : isAuthenticated req = false := by simpa using h
    cases mode <;> refine ⟨?_, ?_, ?_⟩ <;> simp [applyCachePolicy, h']

/-- Claim C5 witness: concrete anonymous and authenticated requests hit
the expected table rows. -/
theorem applyCachePolicy_table_witness :
    (applyCachePolicy ⟨none, none, []⟩ CacheMode.html).vary = "Accept-Encoding"
    ∧ (applyCachePolicy ⟨none, some "Bearer tok", []⟩ CacheMode.data).cacheControl
        = "private, no-store"
    ∧ (applyCachePolicy ⟨none, none, []⟩ CacheMode.html).cacheControl
        = "public, max-age=0, s-maxage=60, stale-while-revalidate=300"
    ∧ (applyCachePolicy ⟨none, none, []⟩ CacheMode.static).cacheControl
        = "public, max-age=31536000, immutable" := by
  refine ⟨?_, ?_, ?_, ?_⟩
  · exact (applyCachePolicy_table ⟨none, none, []⟩ CacheMode.html).1
  · exact (applyCachePolicy_table ⟨none, some "Bearer tok", []⟩ CacheMode.data).2.1
      (by decide)
  · exact ((applyCachePolicy_table ⟨none, none, []⟩ CacheMode.html).2.2 (by decide)).1 rfl
  · exact ((applyCachePolicy_table ⟨none, none, []⟩ CacheMode.static).2.2
      (by decide)).2.2.2 rfl

/-! ### Claim C7: what establishes authentication -/

/-- Claim C9 counterexample: the cited client defaults the timeout to
5000 ms, not 1500 ms, when the caller omits the option. -/
theorem getJson_timeout_default_counterexample :
    resolveTimeoutMs none = 5000 ∧ ((5000 : Nat) == 1500) = false := by
  constructor
  · rfl
  · rfl

/-- Claim C9 (amended): when the caller omits the timeout option —
either passing no options at all or leaving `timeoutMs` unset — the
request timeout defaults to 5000 ms. -/
theorem getJson_timeout_default :
    resolveTimeoutMs none = 5000
    ∧ ∀ r : Option Nat, resolveTimeoutMs (some ⟨none, r⟩) = 5000 :=
  ⟨rfl, fun _ => rfl⟩

/-! ### Claims C2 and C3: error folding in the bootstrap assembler -/

/-- Claim C2 counterexample: a TIMEOUT failure of the listing fetch is
folded into status 500 with code `BOOTSTRAP_UNKNOWN` — not a TIMEOUT
code with 504-class status; the kind-to-code mapping the claim
describes does not exist in the catch-all of `getBootstrapPayload`. -/
theorem bootstrap_error_code_counterexample :
    (getBootstrapPayload ⟨"r1", none, false, "/todos"⟩ none
        (Except.ok ⟨1, "Ada", "ada"⟩) (Except.error JsError.abortError)).page
      = Page.error 500 "BOOTSTRAP_UNKNOWN" "An unknown error occurred during bootstrapping."
    ∧ ("BOOTSTRAP_UNKNOWN" == "TIMEOUT") = false
    ∧ (((500 : Int) == 504)) = false := by
  refine ⟨?_, ?_, ?_⟩ <;> decide

/-- Claim C2 (amended): whenever bootstrap assembly fails — the chosen
cache missed and an upstream call raised — `getBootstrapPayload` yields
the one fixed error variant: the safe message, code `BOOTSTRAP_UNKNOWN`
and status 500, regardless of the failure kind. -/
theorem bootstrap_error_uniform (ctx : RequestContext)
    (userRes : Except JsError ExternalUser)
    (todosRes : Except JsError (List ExternalTodo))
    (h : (getBootstrapPayload ctx none userRes todosRes).page.isError = true) :
    getBootstrapPayload ctx none userRes todosRes = errorBootstrap ctx.route := by
  cases hU : (if ctx.isAuthenticated then Except.map (fun u => some u.name) userRes
      else Except.ok none) with
  | error e => simp [getBootstrapPayload, hU]
  | ok userName =>
    by_cases hR : ctx.route = "/todos"
    · cases hT : todosRes with
      | error e => simp [getBootstrapPayload, hU, hR, hT]
      | ok todos =>
        exfalso
        simp [getBootstrapPayload, hU, hR, hT, Page.isError] at h
    · exfalso
      simp [getBootstrapPayload, hU, hR, Page.isError] at h

/-- Claim C2 witness: a NETWORK-kind failure on the listing fetch
yields exactly the fixed 500 / BOOTSTRAP_UNKNOWN error payload. -/
theorem bootstrap_error_uniform_witness :
    getBootstrapPayload ⟨"r2", none, false, "/todos"⟩ none
        (Except.ok ⟨1, "Ada", "ada"⟩) (Except.error JsError.typeError)
      = errorBootstrap "/todos" :=
  bootstrap_error_uniform ⟨"r2", none, false, "/todos"⟩
    (Except.ok ⟨1, "Ada", "ada"⟩) (Except.error JsError.typeError) (by decide)

/-- Claim C3 counterexample: an authenticated request to the listing
route whose identity call fails yields the error variant even though
the listing fetch itself succeeded — there is no greeting fallback. -/
theorem bootstrap_identity_failure_counterexample :
    (getBootstrapPayload ⟨"r3", some "u1", true, "/todos"⟩ none
        (Except.error JsError.abortError)
        (Except.ok [⟨1, "a", false⟩])).page.isError = true := by
  decide

/-- Claim C3 (amended): for every authenticated context whose upstream
identity call fails, `getBootstrapPayload` yields the catch-all error
variant (status 500, code `BOOTSTRAP_UNKNOWN`) on a cache miss — even
when the route's own data fetch would succeed.  The code has no
non-personalised authenticated-tone greeting fallback: the identity
failure escalates to an error payload. -/
theorem bootstrap_identity_failure (ctx : RequestContext) (e : JsError)
    (todosRes : Except JsError (List ExternalTodo))
    (hauth : ctx.isAuthenticated = true) :
    getBootstrapPayload ctx none (Except.error e) todosRes = errorBootstrap ctx.route := by
  simp [getBootstrapPayload, hauth, Except.map]

/-- Claim C3 witness: an authenticated home-route request with a failed
identity call and a (vacuously) succeeding data fetch produces the
error payload. -/
theorem bootstrap_identity_failure_witness :
    getBootstrapPayload ⟨"r4", some "u9", true, "/"⟩ none
        (Except.error JsError.typeError) (Except.ok []) = errorBootstrap "/" :=
  bootstrap_identity_failure ⟨"r4", some "u9", true, "/"⟩ JsError.typeError
    (Except.ok []) rfl

/-! ### Claim C4: attempt counting and the retry classifier -/

theorem getJsonLoop_step {α : Type} (outcomes : Nat → FetchOutcome α)
    (attempt fuel : Nat) :
    getJsonLoop outcomes attempt fuel =
      match outcomes attempt with
      | .ok v => (.ok v, attempt + 1)
      | .err e =>
        match fuel with
        | 0 => (.error e, attempt + 1)
        | fuel' + 1 =>
          if isRetryable e then getJsonLoop outcomes (attempt + 1) fuel'
          else (.error e, attempt + 1) := by
  conv_lhs => rw [getJsonLoop]

theorem getJsonLoop_all_retryable {α : Type} (outcomes : Nat → FetchOutcome α)
    (e : Nat → JsError) (h1 : ∀ i, outcomes i = .err (e i))
    (h2 : ∀ i, isRetryable (e i) = true) :
    ∀ (fuel attempt : Nat),
      getJsonLoop outcomes attempt fuel
        = (.error (e (attempt + fuel)), attempt + fuel + 1) := by
  intro fuel
  induction fuel with
  | zero =>
    intro attempt
    rw [getJsonLoop_step, h1 attempt]
    simp
  | succ fuel ih =>
    intro attempt
    rw [getJsonLoop_step, h1 attempt]
    simp only [h2 attempt, if_true]
    rw [ih (attempt + 1)]
    have harith : attempt + 1 + fuel = attempt + (fuel + 1) := by omega
    rw [harith]

/-- Claim C4: with `maxAttempts = retries + 1` configured attempts,
when every attempt's outcome is a timeout (abort) or a transport
failure, exactly `maxAttempts` attempts are performed and the final
classified error is raised; when the first attempt's outcome is a
non-2xx HTTP response, exactly one attempt is performed and the failure
is raised immediately; and only the TIMEOUT (abort) and NETWORK
(`TypeError`) kinds are retryable. -/
theorem getJson_retry_policy :
    (∀ (α : Type) (outcomes : Nat → FetchOutcome α) (opts : Option GetJsonOpts)
        (e : Nat → JsError),
        (∀ i, outcomes i = FetchOutcome.err (e i)) →
        (∀ i, e i = JsError.abortError ∨ e i = JsError.typeError) →
        getJson outcomes opts
          = (Except.error (e (resolveRetries opts)), resolveRetries opts + 1))
    ∧ (∀ (α : Type) (outcomes : Nat → FetchOutcome α) (opts : Option GetJsonOpts)
        (s : Nat),
        outcomes 0 = FetchOutcome.err (JsError.httpError s) →
        getJson outcomes opts = (Except.error (JsError.httpError s), 1))
    ∧ (∀ err : JsError, isRetryable err = true ↔
        (err = JsError.abortError ∨ err = JsError.typeError)) := by
  refine ⟨?_, ?_, ?_⟩
  · intro α outcomes opts e h1 h2
    have h2' : ∀ i, isRetryable (e i) = true := by
      intro i
      rcases h2 i with h | h <;> simp [h, isRetryable]
    have h := getJsonLoop_all_retryable outcomes e h1 h2' (resolveRetries opts) 0
    simpa [getJson] using h
  · intro α outcomes opts s h0
    cases hr : resolveRetries opts with
    | zero =>
      rw [getJson, hr, getJsonLoop_step, h0]
    | succ n =>
      rw [getJson, hr, getJsonLoop_step, h0]
      simp [isRetryable]
  · intro err
    cases err <;> simp [isRetryable]

/-- Claim C4 witness: with the default options (`retries = 1`, so two
attempts), an all-timeouts run performs 2 attempts and raises the
timeout; a first-attempt HTTP 503 is raised after exactly one
attempt. -/
theorem getJson_retry_policy_witness :
    getJson (fun _ => FetchOutcome.err JsError.abortError : Nat → FetchOutcome Nat) none
      = (Except.error JsError.abortError, 2)
    ∧ getJson (fun _ => FetchOutcome.err (JsError.httpError 503) : Nat → FetchOutcome Nat)
        none
      = (Except.error (JsError.httpError 503), 1)
    ∧ (isRetryable JsError.abortError = true ↔
        (JsError.abortError = JsError.abortError
          ∨ JsError.abortError = JsError.typeError)) := by
  refine ⟨?_, ?_, ?_⟩
  · exact getJson_retry_policy.1 Nat (fun _ => FetchOutcome.err JsError.abortError) none
      (fun _ => JsError.abortError) (fun _ => rfl) (fun _ => Or.inl rfl)
  · exact getJson_retry_policy.2.1 Nat
      (fun _ => FetchOutcome.err (JsError.httpError 503)) none 503 rfl
  · exact getJson_retry_policy.2.2 JsError.abortError

/-! ### Claim C6: private cache key isolation between users -/

/-- The relation `buildRequestContext` guarantees between `userId` and
`isAuthenticated`: a context is anonymous exactly when it carries no
identity string. -/
def ctxWF (ctx : RequestContext) : Prop :=
  ctx.isAuthenticated = false ↔ ctx.userId = none

theorem anonKey_ne_userKey (s r r' : String) :
    ("anon:" ++ r) ≠ ("user=" ++ s ++ ":" ++ r') := by
  intro hEq
  have hd := congrArg String.data hEq
  simp only [String.data_append] at hd
  simp only [List.cons_append, List.nil_append] at hd
  injection hd with hh _
  exact absurd hh (by decide)

theorem userKey_inj (s1 s2 r : String)
    (hEq : ("user=" ++ s1 ++ ":" ++ r) = ("user=" ++ s2 ++ ":" ++ r)) : s1 = s2 := by
  have hd := congrArg String.data hEq
  simp only [String.data_append] at hd
  have h3 := List.append_cancel_right hd
  have h4 := List.append_cancel_right h3
  have h5 := List.append_cancel_left h4
  cases s1
  cases s2
  exact congrArg String.mk h5

theorem mapGet_afterEvict_some {V : Type} (c : TTLCache V) (k k2 : String)
    (e2 : CacheEntry V) (h : mapGet (afterEvict c k) k2 = some e2) :
    mapGet c.entries k2 = some e2 := by
  unfold afterEvict at h
  split at h
  · rcases hE : c.entries with _ | ⟨⟨k0, e0⟩, rest⟩
    · rw [hE] at h
      simp [mapGet] at h
    · rw [hE] at h
      by_cases h0 : k0 = ""
      · subst h0
        simp at h
        exact h
      · simp [h0] at h
        by_cases hk2 : k2 = k0
        · rw [hk2, mapGet_mapDelete_self] at h
          simp at h
        · rw [mapGet_mapDelete_ne _ _ _ hk2] at h
          exact h
  · exact h

theorem set_get_isolated {V : Type} (c : TTLCache V) (k1 k2 : String) (v : V)
    (t now : Nat) (w : V) (hne : k1 ≠ k2)
    (h : ((TTLCache.set c k1 v t).get k2 now).1 = some w) :
    (TTLCache.get c k2 now).1 = some w := by
  have hmg : mapGet ((TTLCache.set c k1 v t).entries) k2 = mapGet (afterEvict c k1) k2 :=
    mapGet_mapSet_ne _ _ _ _ (Ne.symm hne)
  rcases ha : mapGet (afterEvict c k1) k2 with _ | e2
  · have hz : (TTLCache.get (TTLCache.set c k1 v t) k2 now).1 = none := by
      simp [TTLCache.get, hmg, ha]
    rw [hz] at h
    simp at h
  · have hup : mapGet c.entries k2 = some e2 := mapGet_afterEvict_some c k1 k2 e2 ha
    by_cases hexp : e2.expiresAtMs ≤ now
    · have hz : (TTLCache.get (TTLCache.set c k1 v t) k2 now).1 = none := by
        simp [TTLCache.get, hmg, ha, hexp]
      rw [hz] at h
      simp at h
    · have hv : (TTLCache.get (TTLCache.set c k1 v t) k2 now).1 = some e2.value := by
        simp [TTLCache.get, hmg, ha, hexp]
      have hv' : (TTLCache.get c k2 now).1 = some e2.value := by
        simp [TTLCache.get, hup, hexp]
      rw [hv] at h
      rw [hv', h]

/-- Claim C6: for well-formed contexts with different `userId` and the
same route, the private cache keys differ; `buildRequestContext` only
produces well-formed contexts; and a value stored under one key is
never served by a `get` of a different key — anything such a `get`
returns was already readable before the write. -/
theorem privateKey_isolation :
    (∀ ctx1 ctx2 : RequestContext, ctxWF ctx1 → ctxWF ctx2 →
        ctx1.userId ≠ ctx2.userId → ctx1.route = ctx2.route →
        (makePrivateKey ctx1 == makePrivateKey ctx2) = false)
    ∧ (∀ (req : HttpRequest) (freshId uuid : String) (ro : Option String)
        (path : String), ctxWF (buildRequestContext req freshId uuid ro path))
    ∧ (∀ (V : Type) (c : TTLCache V) (k1 k2 : String) (v : V) (t now : Nat) (w : V),
        k1 ≠ k2 →
        ((TTLCache.set c k1 v t).get k2 now).1 = some w →
        (TTLCache.get c k2 now).1 = some w) := by
  refine ⟨?_, ?_, ?_⟩
  · intro ctx1 ctx2 h1 h2 hu hr
    rw [beq_eq_false_iff_ne]
    by_cases ha1 : ctx1.isAuthenticated = true
    · have hn1 : ctx1.userId ≠ none := by
        intro h
        have := h1.mpr h
        simp [this] at ha1
      obtain ⟨u1, hu1⟩ := Option.ne_none_iff_exists'.mp hn1
      by_cases ha2 : ctx2.isAuthenticated = true
      · have hn2 : ctx2.userId ≠ none := by
          intro h
          have := h2.mpr h
          simp [this] at ha2
        obtain ⟨u2, hu2⟩ := Option.ne_none_iff_exists'.mp hn2
        have hs : u1 ≠ u2 := by
          intro h
          apply hu
          rw [hu1, hu2, h]
        simp only [makePrivateKey, ha1, hu1, hu2, ha2, jsStringOfNullable,
          Bool.not_true, Bool.false_eq_true, if_false]
        intro hEq
        rw [hr] at hEq
        exact hs (userKey_inj u1 u2 ctx2.route hEq)
      · have ha2' : ctx2.isAuthenticated = false := by simpa using ha2
        simp only [makePrivateKey, ha1, ha2', hu1, jsStringOfNullable,
          Bool.not_true, Bool.not_false, Bool.false_eq_true, if_false, if_true]
        exact Ne.symm (anonKey_ne_userKey u1 ctx2.route ctx1.route)
    · have ha1' : ctx1.isAuthenticated = false := by simpa using ha1
      by_cases ha2 : ctx2.isAuthenticated = true
      · have hn2 : ctx2.userId ≠ none := by
          intro h
          have := h2.mpr h
          simp [this] at ha2
        obtain ⟨u2, hu2⟩ := Option.ne_none_iff_exists'.mp hn2
        simp only [makePrivateKey, ha1', ha2, hu2, jsStringOfNullable,
          Bool.not_true, Bool.not_false, Bool.false_eq_true, if_false, if_true]
        exact anonKey_ne_userKey u2 ctx1.route ctx2.route
      · have e1 : ctx1.userId = none := h1.mp (by simpa using ha1)
        have e2 : ctx2.userId = none := h2.mp (by simpa using ha2)
        exact absurd (e1.trans e2.symm) hu
  · intro req freshId uuid ro path
    by_cases h : isAuthenticated req = true
    · cases hm : matchSession ((req.cookie.getD "").data) with
      | none => simp [ctxWF, buildRequestContext, getOrCreateUserId, h, hm]
      | some cap => simp [ctxWF, buildRequestContext, getOrCreateUserId, h, hm]
    · have h' : isAuthenticated req = false := by simpa using h
      simp [ctxWF, buildRequestContext, getOrCreateUserId, h']
  · intro V c k1 k2 v t now w hne h
    exact set_get_isolated c k1 k2 v t now w hne h

/-- Claim C6 witness: two authenticated contexts for users `alice` and
`bob` on the same route get different private keys; a context built
from a session request is well-formed; and a get under `bob`-side key
after an `alice`-side write returns only what was already present. -/
theorem privateKey_isolation_witness :
    (makePrivateKey ⟨"ra", some "alice", true, "/todos"⟩
        == makePrivateKey ⟨"rb", some "bob", true, "/todos"⟩) = false
    ∧ ctxWF (buildRequestContext ⟨some "session=abc", none, []⟩ "rid" "u0" none "/")
    ∧ (TTLCache.get (⟨100, 10, [("k2", ⟨42, 50⟩)]⟩ : TTLCache Nat) "k2" 5).1
        = some 42 := by
  refine ⟨?_, ?_, ?_⟩
  · exact privateKey_isolation.1 ⟨"ra", some "alice", true, "/todos"⟩
      ⟨"rb", some "bob", true, "/todos"⟩ (by simp [ctxWF]) (by simp [ctxWF])
      (by decide) rfl
  · exact privateKey_isolation.2.1 ⟨some "session=abc", none, []⟩ "rid" "u0" none "/"
  · exact privateKey_isolation.2.2 Nat ⟨100, 10, [("k2", ⟨42, 50⟩)]⟩ "k1" "k2" 7 0 5 42
      (by decide) (by decide)

/-! ### Claim C1: escaping of the embedded bootstrap JSON -/

theorem count_escapeLt_lt_eq_zero : ∀ s : List Char, (escapeLtChars s).count '<' = 0 := by
  intro s
  induction s with
  | nil => simp [escapeLtChars]
  | cons d rest ih =>
    by_cases h : d = '<'
    · subst h
      simp [escapeLtChars, List.count_append, ih]
    · simp [escapeLtChars, h, List.count_append, ih, List.count_cons, Ne.symm h]

theorem count_escapeLt (c : Char) (hne : c ≠ '<') (hmem : c ∉ "\\u003c".data) :
    ∀ s : List Char, (escapeLtChars s).count c = s.count c := by
  have h1 : c ≠ '\\' := fun h => hmem (by rw [h]; decide)
  have h2 : c ≠ 'u' := fun h => hmem (by rw [h]; decide)
  have h3 : c ≠ '0' := fun h => hmem (by rw [h]; decide)
  have h4 : c ≠ '3' := fun h => hmem (by rw [h]; decide)
  have h5 : c ≠ 'c' := fun h => hmem (by rw [h]; decide)
  intro s
  induction s with
  | nil => simp [escapeLtChars]
  | cons d rest ih =>
    by_cases h : d = '<'
    · subst h
      simp [escapeLtChars, List.count_append, ih, List.count_cons, hne,
        Ne.symm h1, Ne.symm h2, Ne.symm h3, Ne.symm h4, Ne.symm h5]
    · simp [escapeLtChars, h, List.count_append, ih, List.count_cons]

/-- Claim C1 counterexample: the serialisation escapes only `<`; an
ampersand in the greeting and a `>` in the route survive raw in the
inline state script, refuting the five-character escaping claim. -/
theorem escape_claim_counterexample :
    ('&' ∈ escapeJsonForHtml ⟨"/", "Tom & Jerry", Page.home⟩)
    ∧ ('>' ∈ escapeJsonForHtml ⟨"/a>b", "hi", Page.home⟩) := by
  constructor <;> decide

/-- Claim C1 (amended): `escapeJsonForHtml` replaces every occurrence
of `<` in the serialised payload with the `<` escape — the result
contains no raw `<` — but the characters `&`, `>`, `'` and `"` are not
escaped: their raw occurrence counts are exactly those of the plain
JSON serialisation. -/
theorem escapeJsonForHtml_only_lt (p : BootstrapPayload) :
    (escapeJsonForHtml p).count '<' = 0
    ∧ (escapeJsonForHtml p).count '&' = (jsonBootstrapChars p).count '&'
    ∧ (escapeJsonForHtml p).count '>' = (jsonBootstrapChars p).count '>'
    ∧ (escapeJsonForHtml p).count (Char.ofNat 39)
        = (jsonBootstrapChars p).count (Char.ofNat 39)
    ∧ (escapeJsonForHtml p).count (Char.ofNat 34)
        = (jsonBootstrapChars p).count (Char.ofNat 34) := by
  refine ⟨count_escapeLt_lt_eq_zero _, ?_, ?_, ?_, ?_⟩ <;>
    exact count_escapeLt _ (by decide) (by decide) _
